import Mathlib

/-!
Shallow embedding of the weather data pipeline (`weather_pipeline.py`).

The table is modelled as an ordered list of rows with typed, nullable
columns, following the data model of the specification. Missing values
(pandas `NaN`/`NaT`) are `Option.none`. Real-valued columns are modelled
by `Rat`: every arithmetic operation the pipeline performs on them
(median with linear interpolation, mean, the Fahrenheit conversion,
rounding to two decimals) is rational.

Library semantics used by the code are embedded from the documented
behaviour of pandas:
* `Series.median` skips missing values and averages the two central
  values for an even count;
* `groupby("city")` excludes rows whose key is missing, and a
  `transform` aligned back to the frame yields a missing value for such
  rows; `groupby` orders groups by ascending key;
* `fillna` with a missing fill value is a no-op;
* `astype(str)` renders a missing value as the literal string "nan";
* `nlargest(5)` drops missing values and keeps, among ties, the entries
  that occur first in the series;
* `Series.round` rounds half to even.
-/

namespace WeatherPipeline

/-- Calendar date as stored in the `date` column after datetime coercion. -/
structure Date where
  year : Int
  month : Nat
  day : Nat
deriving DecidableEq, Repr

/-- Chronological comparison of dates (lexicographic on year, month, day). -/
def Date.le (a b : Date) : Bool :=
  if a.year ≠ b.year then a.year ≤ b.year
  else if a.month ≠ b.month then a.month ≤ b.month
  else a.day ≤ b.day

/-- One observation row. The loader fills the six source columns; the
derived columns `year`, `month`, `day`, `temperature_fahrenheit` stay
`none` until `transform_data` assigns them. -/
structure Row where
  date : Option Date
  city : Option String
  temperature_celsius : Option Rat
  humidity_percent : Option Rat
  wind_speed_kph : Option Rat
  weather_condition : Option String
  year : Option Int
  month : Option Nat
  day : Option Nat
  temperature_fahrenheit : Option Rat
deriving DecidableEq, Repr

/-- The in-memory dataframe: its column labels and its rows. -/
structure Table where
  cols : List String
  rows : List Row
deriving DecidableEq, Repr

/-- Columns required by the loader (`self.required_columns`). -/
def required_columns : List String :=
  ["date", "city", "temperature_celsius", "humidity_percent",
   "wind_speed_kph", "weather_condition"]

/-- Numeric columns imputed by `clean_data`. -/
def numeric_cols : List String :=
  ["temperature_celsius", "humidity_percent", "wind_speed_kph"]

/-- Tokens treated as missing by the loader (`na_values=`). -/
def na_values : List String :=
  ["", " ", "NA", "N/A", "NaN", "None", "unknown", "Unknown"]

/-- Read a numeric column of a row by its label. -/
def getNum (c : String) (r : Row) : Option Rat :=
  if c = "temperature_celsius" then r.temperature_celsius
  else if c = "humidity_percent" then r.humidity_percent
  else if c = "wind_speed_kph" then r.wind_speed_kph
  else none

/-- Write a numeric column of a row by its label. -/
def setNum (c : String) (v : Option Rat) (r : Row) : Row :=
  if c = "temperature_celsius" then { r with temperature_celsius := v }
  else if c = "humidity_percent" then { r with humidity_percent := v }
  else if c = "wind_speed_kph" then { r with wind_speed_kph := v }
  else r

/-- Median of a list of rationals in the manner of `Series.median`:
sort, take the central value, or the mean of the two central values for
an even count; undefined (missing) on empty data. -/
def median (xs : List Rat) : Option Rat :=
  let s := xs.insertionSort (fun a b => a ≤ b)
  let n := s.length
  if n = 0 then none
  else if n % 2 = 1 then s.get? (n / 2)
  else
    match s.get? (n / 2 - 1), s.get? (n / 2) with
    | some a, some b => some ((a + b) / 2)
    | _, _ => none

/-- Mean of a list of rationals (`Series.mean`); missing on empty data. -/
def mean (xs : List Rat) : Option Rat :=
  if xs.length = 0 then none else some (xs.sum / xs.length)

/-! ## Cleaner (`clean_data`, lines 63-103) -/

/-- Rows surviving `dropna(subset=["date"])` (line 73); the preceding
`to_datetime(..., errors="coerce")` is the identity on a column already
holding dates-or-missing. -/
def rows_after_date_drop (t : Table) : List Row :=
  t.rows.filter (fun r => r.date.isSome)

/-- Python `str.lower` for the basic latin range, on the character data. -/
def lowerStr (s : String) : String :=
  ⟨s.data.map Char.toLower⟩

/-- Python `str.strip`: drop leading and trailing whitespace. -/
def stripStr (s : String) : String :=
  ⟨((s.data.dropWhile Char.isWhitespace).reverse.dropWhile
      Char.isWhitespace).reverse⟩

/-- The `astype(str)` cast of line 80: a missing value prints as "nan". -/
def condToStr : Option String → String
  | none => "nan"
  | some s => s

/-- Line 80: `astype(str).str.lower().str.strip()` applied to a row. -/
def normalize_condition (r : Row) : Row :=
  { r with weather_condition := some (stripStr (lowerStr (condToStr r.weather_condition))) }

/-- The filter of line 85: keep rows whose condition is not in
`["unknown", ""]` (a still-missing condition is not in the list). -/
def condKeep (r : Row) : Bool :=
  match r.weather_condition with
  | some s => !(s = "unknown" || s = "")
  | none => true

/-- Rows after the weather-condition normalization and filter
(lines 78-88), both gated on the column being present. -/
def rows_after_condition (t : Table) : List Row :=
  let r1 := rows_after_date_drop t
  if t.cols.contains "weather_condition" then
    (r1.map normalize_condition).filter condKeep
  else r1

/-- Non-missing values of column `c` among the rows of city `g`. -/
def cityValues (c : String) (g : String) (rows : List Row) : List Rat :=
  (rows.filter (fun r => r.city = some g)).filterMap (getNum c)

/-- The per-city median used by the group imputation pass. -/
def groupMedian (c : String) (g : String) (rows : List Row) : Option Rat :=
  median (cityValues c g rows)

/-- Effect of `groupby("city")[c].transform(lambda x: x.fillna(x.median()))`
on one row: rows with a missing city key fall outside every group and
receive a missing value; in a group, present values are kept and missing
ones become the group median (line 94-96). -/
def groupStep (c : String) (rows : List Row) (r : Row) : Row :=
  match r.city with
  | none => setNum c none r
  | some g =>
    match getNum c r with
    | some _ => r
    | none => setNum c (groupMedian c g rows) r

/-- The group imputation pass for one column (lines 94-96). -/
def imputeGroupCol (c : String) (rows : List Row) : List Row :=
  rows.map (groupStep c rows)

/-- The global fallback for one column (lines 99-101): when the column
still has a missing value, fill with its global median; filling with a
missing median is a no-op. -/
def imputeGlobalCol (c : String) (rows : List Row) : List Row :=
  if rows.any (fun r => (getNum c r).isNone) then
    match median (rows.filterMap (getNum c)) with
    | none => rows
    | some m =>
      rows.map (fun r => if (getNum c r).isNone then setNum c (some m) r else r)
  else rows

/-- First imputation loop of `clean_data` over the numeric columns, each
gated on column presence (lines 92-96). -/
def impute_group_pass (cols : List String) (rows : List Row) : List Row :=
  numeric_cols.foldl (fun rs c => if cols.contains c then imputeGroupCol c rs else rs) rows

/-- Second imputation loop of `clean_data` (lines 99-101). -/
def impute_global_pass (cols : List String) (rows : List Row) : List Row :=
  numeric_cols.foldl (fun rs c => if cols.contains c then imputeGlobalCol c rs else rs) rows

/-- The cleaning stage (`clean_data`, lines 63-103) on a loaded table. -/
def clean_data (t : Table) : Table :=
  { t with rows := impute_global_pass t.cols (impute_group_pass t.cols (rows_after_condition t)) }

/-! ## Transformer (`transform_data`, lines 105-125) -/

/-- Date order used by `sort_values("date")` with the default
`na_position="last"`: missing dates sort after every date. -/
def dateLe (a b : Option Date) : Bool :=
  match a, b with
  | some x, some y => Date.le x y
  | some _, none => true
  | none, some _ => false
  | none, none => true

/-- Row comparison for the sort of line 114. -/
def rowDateLe (r s : Row) : Bool := dateLe r.date s.date

/-- Append a column label unless it is already present (the effect of
assigning a dataframe column). -/
def addCol (cols : List String) (c : String) : List String :=
  if cols.contains c then cols else cols ++ [c]

/-- Lines 117-123 applied to one row: extract the date components
(missing for a missing date, as `dt.year` yields NaN on NaT) and derive
Fahrenheit from Celsius when that column exists. -/
def deriveRow (hasTemp : Bool) (r : Row) : Row :=
  { r with
    year := r.date.map Date.year
    month := r.date.map Date.month
    day := r.date.map Date.day
    temperature_fahrenheit :=
      if hasTemp then r.temperature_celsius.map (fun c => c * 9 / 5 + 32)
      else r.temperature_fahrenheit }

/-- The transformation stage (`transform_data`, lines 105-125): re-coerce
`date` (the identity here), sort by date, derive columns. The source
calls `sort_values` with its default sort kind, which orders rows by the
key but gives no contractual guarantee on the relative order of rows
with equal dates; the embedding uses a stable date-ordered sort as the
representative of that family. -/
def transform_data (t : Table) : Table :=
  let sorted := t.rows.insertionSort (fun a b => rowDateLe a b = true)
  let cols2 := addCol (addCol (addCol t.cols "year") "month") "day"
  let hasTemp := t.cols.contains "temperature_celsius"
  { cols := if hasTemp then addCol cols2 "temperature_fahrenheit" else cols2
    rows := sorted.map (deriveRow hasTemp) }

/-! ## Analyzer (`analyze_data`, lines 127-161) -/

/-- Rounding of `Series.round(2)`: numpy rounds half to even. -/
def roundHalfEven (x : Rat) : Int :=
  if x - (⌊x⌋ : Rat) < 1 / 2 then ⌊x⌋
  else if 1 / 2 < x - (⌊x⌋ : Rat) then ⌊x⌋ + 1
  else if ⌊x⌋ % 2 = 0 then ⌊x⌋ else ⌊x⌋ + 1

/-- Round a rational to two decimal places, half to even. -/
def round2 (x : Rat) : Rat := (roundHalfEven (x * 100) : Rat) / 100

/-- The four numeric columns analysed (line 135-140). -/
def analyze_numeric_cols : List String := numeric_cols ++ ["temperature_fahrenheit"]

/-- Read any of the four analysed numeric columns of a row. -/
def getNum4 (c : String) (r : Row) : Option Rat :=
  if c = "temperature_fahrenheit" then r.temperature_fahrenheit else getNum c r

/-- Quantile with linear interpolation, as `describe` computes quartiles. -/
def quantile (xs : List Rat) (p : Rat) : Option Rat :=
  let s := xs.insertionSort (fun a b => a ≤ b)
  let n := s.length
  if n = 0 then none
  else
    let h : Rat := ((n - 1 : Nat) : Rat) * p
    let i : Nat := (⌊h⌋).toNat
    let frac := h - (i : Rat)
    match s.get? i with
    | none => none
    | some lo =>
      match s.get? (i + 1) with
      | none => some lo
      | some hi => some (lo + frac * (hi - lo))

/-- Sample variance (`ddof=1`); missing for fewer than two points. -/
def sampleVariance (xs : List Rat) : Option Rat :=
  match mean xs with
  | none => none
  | some m =>
    if xs.length ≤ 1 then none
    else some ((xs.map (fun x => (x - m) ^ 2)).sum / ((xs.length - 1 : Nat) : Rat))

/-- Minimum of a list of rationals, missing on empty data. -/
def listMin (xs : List Rat) : Option Rat :=
  xs.foldl (fun acc x => match acc with | none => some x | some m => some (min m x)) none

/-- Maximum of a list of rationals, missing on empty data. -/
def listMax (xs : List Rat) : Option Rat :=
  xs.foldl (fun acc x => match acc with | none => some x | some m => some (max m x)) none

/-- One column of `describe().round(2)` (line 141). The standard
deviation reported by `describe` is the square root of `variance`,
irrational in general; the embedding carries the variance (unrounded)
in its place. -/
structure ColDescribe where
  count : Nat
  mean : Option Rat
  variance : Option Rat
  min : Option Rat
  q25 : Option Rat
  q50 : Option Rat
  q75 : Option Rat
  max : Option Rat
deriving DecidableEq, Repr

/-- Compute the `describe` summary of one column. -/
def describeCol (xs : List Rat) : ColDescribe :=
  { count := xs.length
    mean := (mean xs).map round2
    variance := sampleVariance xs
    min := (listMin xs).map round2
    q25 := (quantile xs (1 / 4)).map round2
    q50 := (quantile xs (1 / 2)).map round2
    q75 := (quantile xs (3 / 4)).map round2
    max := (listMax xs).map round2 }

/-- The `mean`, `median`, `min`, `max` aggregate of `city_stats`
(lines 144-148), rounded to two decimals. -/
structure AggStats where
  mean : Option Rat
  median : Option Rat
  min : Option Rat
  max : Option Rat
deriving DecidableEq, Repr

/-- Distinct city keys in the order `groupby("city")` presents groups:
rows with a missing key are excluded and keys sort ascending. -/
def cityKeysSorted (rows : List Row) : List String :=
  ((rows.filterMap Row.city).dedup).insertionSort (fun a b => a ≤ b)

/-- Non-missing values of an analysed column within one city group. -/
def cityValues4 (c : String) (g : String) (rows : List Row) : List Rat :=
  (rows.filter (fun r => r.city = some g)).filterMap (getNum4 c)

/-- The `city_stats` view: per sorted city key, the four aggregates of
each analysed numeric column. -/
def city_stats (rows : List Row) : List (String × List (String × AggStats)) :=
  (cityKeysSorted rows).map (fun g =>
    (g, analyze_numeric_cols.map (fun c =>
      let xs := cityValues4 c g rows
      (c, { mean := (mean xs).map round2
            median := (median xs).map round2
            min := (listMin xs).map round2
            max := (listMax xs).map round2 }))))

/-- Distinct elements in order of first occurrence. -/
def dedupFirstAux (seen : List String) : List String → List String
  | [] => []
  | a :: l =>
    if seen.contains a then dedupFirstAux seen l
    else a :: dedupFirstAux (a :: seen) l

/-- Distinct elements in order of first occurrence. -/
def dedupFirst (l : List String) : List String := dedupFirstAux [] l

/-- The `weather_freq` view (`value_counts`, lines 151-153): count per
distinct condition, descending by count; missing conditions are not
counted. The relative order of equal counts is not contractual in
pandas; the embedding lists ties by first occurrence. -/
def weather_freq (rows : List Row) : List (String × Nat) :=
  let conds := rows.filterMap Row.weather_condition
  ((dedupFirst conds).map (fun k => (k, conds.count k))).insertionSort (fun a b => b.2 ≤ a.2)

/-- Mean `temperature_celsius` of one city group. -/
def cityMeanTemp (rows : List Row) (g : String) : Option Rat :=
  mean (cityValues "temperature_celsius" g rows)

/-- The series `groupby("city")["temperature_celsius"].mean()`: keys
ascending, one mean per group; a group whose values are all missing
yields a missing mean, which `nlargest` then drops. -/
def cityMeanSeries (rows : List Row) : List (String × Rat) :=
  (cityKeysSorted rows).filterMap (fun g => (cityMeanTemp rows g).map (fun m => (g, m)))

/-- The effect of `nlargest(5)` on a series: stable descending sort by
value, keep the first five (ties keep series order, `keep="first"`). -/
def nlargest5 (xs : List (String × Rat)) : List (String × Rat) :=
  (xs.insertionSort (fun a b => b.2 ≤ a.2)).take 5

/-- The `top_cities` view (lines 156-159): `nlargest(5).round(2)`. -/
def top_cities (rows : List Row) : List (String × Rat) :=
  (nlargest5 (cityMeanSeries rows)).map (fun p => (p.1, round2 p.2))

/-- The dictionary `analyze_data` returns. -/
structure AnalysisResults where
  basic_stats : List (String × ColDescribe)
  city_stats : List (String × List (String × AggStats))
  weather_freq : List (String × Nat)
  top_cities : List (String × Rat)
deriving DecidableEq, Repr

/-- The analysis stage (`analyze_data`, lines 127-161) on a table. -/
def analyze_data (t : Table) : AnalysisResults :=
  { basic_stats :=
      analyze_numeric_cols.map (fun c => (c, describeCol (t.rows.filterMap (getNum4 c))))
    city_stats := city_stats t.rows
    weather_freq := weather_freq t.rows
    top_cities := top_cities t.rows }

/-! ## Loader (`load_data`, lines 38-61) and the pipeline state

The loader is parameterized by the date and number readers of
`read_csv` (`parseD`, `parseN`); the claims hold for every choice. The
`na_values` mapping applies to a cell before parsing. -/

/-- A readable delimited source: a header row and data records. -/
structure Csv where
  header : List String
  records : List (List String)
deriving DecidableEq, Repr

/-- The raw text of column `c` in a record, by header position. -/
def getCell (header record : List String) (c : String) : Option String :=
  (header.findIdx? (fun h => h = c)).bind (fun i => record.get? i)

/-- Map the null-sentinel tokens of `na_values` to a missing value. -/
def naFilter (v : Option String) : Option String :=
  v.bind (fun s => if na_values.contains s then none else some s)

/-- Parse one record into a typed row. -/
def parseRow (parseD : String → Option Date) (parseN : String → Option Rat)
    (header record : List String) : Row :=
  { date := (naFilter (getCell header record "date")).bind parseD
    city := naFilter (getCell header record "city")
    temperature_celsius := (naFilter (getCell header record "temperature_celsius")).bind parseN
    humidity_percent := (naFilter (getCell header record "humidity_percent")).bind parseN
    wind_speed_kph := (naFilter (getCell header record "wind_speed_kph")).bind parseN
    weather_condition := naFilter (getCell header record "weather_condition")
    year := none
    month := none
    day := none
    temperature_fahrenheit := none }

/-- Parse a whole source into a table. -/
def parseCsv (parseD : String → Option Date) (parseN : String → Option Rat)
    (csv : Csv) : Table :=
  { cols := csv.header, rows := csv.records.map (parseRow parseD parseN csv.header) }

/-- Error kinds of the pipeline (section 7 of the specification). -/
inductive Err
  | ioError
  | schemaError
  | notLoaded
  | keyError
deriving DecidableEq, Repr

/-- The mutable pipeline instance: `self.df`. -/
structure PState where
  df : Option Table
deriving DecidableEq, Repr

/-- The loading stage (`load_data`, lines 38-61) as a state transition.
An unreadable source fails before any assignment. A header without
`date` makes `read_csv` itself fail (`parse_dates=["date"]`), also
before the assignment. Otherwise line 42 assigns `self.df` first and
the required-column check of lines 51-55 runs on the already-assigned
table. -/
def load_data (parseD : String → Option Date) (parseN : String → Option Rat)
    (src : Option Csv) (st : PState) : Except Err Unit × PState :=
  match src with
  | none => (.error .ioError, st)
  | some csv =>
    if csv.header.contains "date" then
      let st2 : PState := ⟨some (parseCsv parseD parseN csv)⟩
      if required_columns.all (fun c => csv.header.contains c) then (.ok (), st2)
      else (.error .schemaError, st2)
    else (.error .schemaError, st)

/-- Labels whose absence makes the body of `clean_data` raise a
`KeyError`: line 69 reads `df["date"]` unconditionally, and line 94
reads `groupby("city")` as soon as one numeric column exists. Such
tables are never produced by a successful load. -/
def clean_data_raises (cols : List String) : Bool :=
  !(cols.contains "date" &&
    (cols.contains "city" || numeric_cols.all (fun c => !(cols.contains c))))

/-- The cleaning stage as a state transition: the `ValueError` of
line 66 (`NotLoadedError`) exactly when `self.df is None`. -/
def clean_data_st (st : PState) : Except Err Unit × PState :=
  match st.df with
  | none => (.error .notLoaded, st)
  | some t =>
    if clean_data_raises t.cols then (.error .keyError, st)
    else (.ok (), ⟨some (clean_data t)⟩)

/-- The transformation stage as a state transition (line 108 raises
`NotLoadedError` when unloaded; line 111 reads `df["date"]`). -/
def transform_data_st (st : PState) : Except Err Unit × PState :=
  match st.df with
  | none => (.error .notLoaded, st)
  | some t =>
    if t.cols.contains "date" then (.ok (), ⟨some (transform_data t)⟩)
    else (.error .keyError, st)

/-- Labels `analyze_data` reads (lines 135-157). -/
def analyze_cols_present (cols : List String) : Bool :=
  (analyze_numeric_cols ++ ["city", "weather_condition"]).all (fun c => cols.contains c)

/-- The analysis stage as a state transition: it only reads `self.df`
and returns a fresh results value. -/
def analyze_data_st (st : PState) : Except Err AnalysisResults × PState :=
  match st.df with
  | none => (.error .notLoaded, st)
  | some t =>
    if analyze_cols_present t.cols then (.ok (analyze_data t), st)
    else (.error .keyError, st)

/-- The export stage (`save_results`, lines 217-238): fails when no
table is held; otherwise the write either succeeds or fails with an
i/o error, abstracted by the `exportOk` flag. -/
def save_results (exportOk : Bool) (st : PState) : Except Err Unit × PState :=
  match st.df with
  | none => (.error .notLoaded, st)
  | some _ => if exportOk then (.ok (), st) else (.error .ioError, st)

/-- The orchestration (`run_pipeline`, lines 240-259): run the five
stages in order inside one `try`; any raised error is caught and turned
into the return value `false`, success returns `true`. -/
def run_pipeline (parseD : String → Option Date) (parseN : String → Option Rat)
    (src : Option Csv) (exportOk : Bool) (st : PState) : Bool × PState :=
  match load_data parseD parseN src st with
  | (.error _, st1) => (false, st1)
  | (.ok _, st1) =>
    match clean_data_st st1 with
    | (.error _, st2) => (false, st2)
    | (.ok _, st2) =>
      match transform_data_st st2 with
      | (.error _, st3) => (false, st3)
      | (.ok _, st3) =>
        match analyze_data_st st3 with
        | (.error _, st4) => (false, st4)
        | (.ok _, st4) =>
          match save_results exportOk st4 with
          | (.error _, st5) => (false, st5)
          | (.ok _, st5) => (true, st5)

/-! ## Proof infrastructure: column views -/

/-- The (city, value) view of one numeric column across the rows. -/
def numView (c : String) (rows : List Row) : List (Option String × Option Rat) :=
  rows.map (fun r => (r.city, getNum c r))

/-- The view of the columns the imputation passes never write. -/
def nonNumView (rows : List Row) : List (Option Date × Option String × Option String) :=
  rows.map (fun r => (r.date, r.city, r.weather_condition))

/-! ## Concrete tables for the examples -/

/-- Build a freshly loaded observation row. -/
def mkRow (d : Option Date) (city : Option String) (tc hu ws : Option Rat)
    (wc : Option String) : Row :=
  { date := d, city := city, temperature_celsius := tc, humidity_percent := hu,
    wind_speed_kph := ws, weather_condition := wc, year := none, month := none,
    day := none, temperature_fahrenheit := none }

/-- A loaded table whose temperature column is entirely missing. -/
def tableAllTempMissing : Table :=
  { cols := required_columns,
    rows := [mkRow (some ⟨2023, 1, 1⟩) (some "a") none (some 60) (some 10) (some "sunny")] }

/-- A loaded table with one missing temperature inside a two-row city
group (the scenario of section 8 of the specification, without the
invalid-date row). -/
def tableOneMissing : Table :=
  { cols := required_columns,
    rows := [mkRow (some ⟨2023, 1, 1⟩) (some "a") (some 25) (some 60) (some 10) (some "sunny"),
             mkRow (some ⟨2023, 1, 2⟩) (some "a") none (some 65) (some 12) (some "cloudy")] }

/-- A loaded table with a sentinel weather condition mapped to missing
by the loader. -/
def tableSentinelCond : Table :=
  { cols := required_columns,
    rows := [mkRow (some ⟨2023, 1, 1⟩) (some "a") (some 1) (some 2) (some 3) none] }

/-- A three-city transformed table with a tie in mean temperature. -/
def tableThreeCities : Table :=
  { cols := required_columns ++ ["year", "month", "day", "temperature_fahrenheit"],
    rows := [mkRow (some ⟨2023, 1, 1⟩) (some "b") (some 10) (some 1) (some 1) (some "sunny"),
             mkRow (some ⟨2023, 1, 1⟩) (some "a") (some 10) (some 1) (some 1) (some "sunny"),
             mkRow (some ⟨2023, 1, 2⟩) (some "c") (some 20) (some 1) (some 1) (some "rainy")] }

end WeatherPipeline

namespace WeatherPipeline

/-! ## Field lemmas -/

theorem setNum_city (c : String) (v : Option Rat) (r : Row) : (setNum c v r).city = r.city := by
  unfold setNum; split_ifs <;> rfl

theorem setNum_date (c : String) (v : Option Rat) (r : Row) : (setNum c v r).date = r.date := by
  unfold setNum; split_ifs <;> rfl

theorem setNum_wc (c : String) (v : Option Rat) (r : Row) :
    (setNum c v r).weather_condition = r.weather_condition := by
  unfold setNum; split_ifs <;> rfl

theorem getNum_setNum_self (c : String) (hc : c ∈ numeric_cols) (v : Option Rat) (r : Row) :
    getNum c (setNum c v r) = v := by
  simp only [numeric_cols, List.mem_cons, List.mem_singleton, List.not_mem_nil, or_false] at hc
  rcases hc with h | h | h <;> subst h <;> rfl

theorem getNum_setNum_ne (a b : String) (hab : a ≠ b) (v : Option Rat) (r : Row) :
    getNum a (setNum b v r) = getNum a r := by
  unfold getNum setNum
  split_ifs <;> simp_all

theorem groupStep_city (c : String) (rows : List Row) (r : Row) :
    (groupStep c rows r).city = r.city := by
  unfold groupStep
  rcases hc2 : r.city with _ | g
  · simp [setNum_city, hc2]
  · rcases hg : getNum c r with _ | v
    · simp [setNum_city, hc2]
    · simp [hc2]

theorem groupStep_date (c : String) (rows : List Row) (r : Row) :
    (groupStep c rows r).date = r.date := by
  unfold groupStep
  rcases hc2 : r.city with _ | g
  · simp [setNum_date]
  · rcases hg : getNum c r with _ | v
    · simp [setNum_date]
    · simp

theorem groupStep_wc (c : String) (rows : List Row) (r : Row) :
    (groupStep c rows r).weather_condition = r.weather_condition := by
  unfold groupStep
  rcases hc2 : r.city with _ | g
  · simp [setNum_wc]
  · rcases hg : getNum c r with _ | v
    · simp [setNum_wc]
    · simp

theorem getNum_groupStep_ne (a c : String) (hac : a ≠ c) (rows : List Row) (r : Row) :
    getNum a (groupStep c rows r) = getNum a r := by
  unfold groupStep
  rcases hc2 : r.city with _ | g
  · simp [getNum_setNum_ne a c hac]
  · rcases hg : getNum c r with _ | v
    · simp [getNum_setNum_ne a c hac]
    · simp

/-! ## View equations for the imputation passes -/

theorem numView_imputeGroupCol_ne (a c : String) (hac : a ≠ c) (rows : List Row) :
    numView a (imputeGroupCol c rows) = numView a rows := by
  unfold numView imputeGroupCol
  rw [List.map_map]
  refine List.map_congr_left (fun r _ => ?_)
  simp [Function.comp, groupStep_city, getNum_groupStep_ne a c hac]

theorem numView_imputeGlobalCol_ne (a c : String) (hac : a ≠ c) (rows : List Row) :
    numView a (imputeGlobalCol c rows) = numView a rows := by
  unfold numView imputeGlobalCol
  split_ifs
  · rcases h : median (rows.filterMap (getNum c)) with _ | m
    · rfl
    · rw [List.map_map]
      refine List.map_congr_left (fun r _ => ?_)
      by_cases hn : (getNum c r).isNone <;>
        simp [Function.comp, hn, setNum_city, getNum_setNum_ne a c hac]
  · rfl

theorem nonNumView_imputeGroupCol (c : String) (rows : List Row) :
    nonNumView (imputeGroupCol c rows) = nonNumView rows := by
  unfold nonNumView imputeGroupCol
  rw [List.map_map]
  exact List.map_congr_left (fun r _ => by
    simp [Function.comp, groupStep_city, groupStep_date, groupStep_wc])

theorem nonNumView_imputeGlobalCol (c : String) (rows : List Row) :
    nonNumView (imputeGlobalCol c rows) = nonNumView rows := by
  unfold nonNumView imputeGlobalCol
  split_ifs
  · rcases h : median (rows.filterMap (getNum c)) with _ | m
    · rfl
    · rw [List.map_map]
      refine List.map_congr_left (fun r _ => ?_)
      by_cases hn : (getNum c r).isNone <;>
        simp [Function.comp, hn, setNum_city, setNum_date, setNum_wc]
  · rfl

/-- The values of a numeric column are determined by its view. -/
theorem filterMap_getNum_eq_view (c : String) (rows : List Row) :
    rows.filterMap (getNum c) = (numView c rows).filterMap (fun p => p.2) := by
  unfold numView
  induction rows with
  | nil => rfl
  | cons r rest ih =>
    rcases h : getNum c r with _ | v <;> simp [List.filterMap_cons, h, ih]

/-- The per-city values of a numeric column are determined by its view. -/
theorem cityValues_eq_view (c g : String) (rows : List Row) :
    cityValues c g rows =
      ((numView c rows).filter (fun p => p.1 = some g)).filterMap (fun p => p.2) := by
  unfold cityValues numView
  induction rows with
  | nil => rfl
  | cons r rest ih =>
    by_cases hg : r.city = some g
    · rcases h : getNum c r with _ | v <;>
        simp [List.filter_cons, hg, List.filterMap_cons, h, ih]
    · simp [List.filter_cons, hg, ih]

theorem groupMedian_congr (c g : String) (rows rows2 : List Row)
    (h : numView c rows = numView c rows2) :
    groupMedian c g rows = groupMedian c g rows2 := by
  unfold groupMedian
  rw [cityValues_eq_view, cityValues_eq_view, h]

/-- What the group pass does to its own column, described against the
view of its input: rows outside every group lose their value, rows in
group `g` keep a present value and fill a missing one with the group
median. -/
theorem numView_imputeGroupCol_self (c : String) (hc : c ∈ numeric_cols) (rows : List Row) :
    numView c (imputeGroupCol c rows) =
      (numView c rows).map (fun p => (p.1,
        match p.1 with
        | none => none
        | some g => Option.or p.2 (groupMedian c g rows))) := by
  unfold numView imputeGroupCol
  rw [List.map_map, List.map_map]
  refine List.map_congr_left (fun r _ => ?_)
  unfold groupStep
  rcases hc2 : r.city with _ | g
  · simp [Function.comp, setNum_city, hc2, getNum_setNum_self c hc]
  · rcases hg : getNum c r with _ | v
    · simp [Function.comp, setNum_city, hc2, hg, getNum_setNum_self c hc, Option.or]
    · simp [Function.comp, hc2, hg, Option.or]

/-- What the global pass does to its own column: a present value is
kept, a missing one becomes the global median of the input (when that
median is itself missing nothing changes). -/
theorem numView_imputeGlobalCol_self (c : String) (hc : c ∈ numeric_cols) (rows : List Row) :
    numView c (imputeGlobalCol c rows) =
      (numView c rows).map
        (fun p => (p.1, Option.or p.2 (median (rows.filterMap (getNum c))))) := by
  unfold imputeGlobalCol
  split_ifs with hany
  · rcases hmed : median (rows.filterMap (getNum c)) with _ | m
    · unfold numView
      rw [List.map_map]
      refine (List.map_congr_left (fun r _ => ?_)).symm
      rcases hg : getNum c r with _ | v <;> simp [Function.comp, hg, Option.or]
    · unfold numView
      rw [List.map_map, List.map_map]
      refine List.map_congr_left (fun r _ => ?_)
      rcases hg : getNum c r with _ | v <;>
        simp [Function.comp, hg, Option.or, setNum_city, getNum_setNum_self c hc]
  · unfold numView
    rw [List.map_map]
    refine (List.map_congr_left (fun r _ => ?_)).symm
    rcases hg : getNum c r with _ | v
    · exact absurd (List.any_eq_true.mpr ⟨r, by assumption, by simp [hg]⟩) hany
    · simp [Function.comp, hg, Option.or]

theorem impute_group_pass_eq (cols : List String)
    (h1 : cols.contains "temperature_celsius" = true)
    (h2 : cols.contains "humidity_percent" = true)
    (h3 : cols.contains "wind_speed_kph" = true) (rows : List Row) :
    impute_group_pass cols rows =
      imputeGroupCol "wind_speed_kph"
        (imputeGroupCol "humidity_percent"
          (imputeGroupCol "temperature_celsius" rows)) := by
  have m1 : "temperature_celsius" ∈ cols := by simpa using h1
  have m2 : "humidity_percent" ∈ cols := by simpa using h2
  have m3 : "wind_speed_kph" ∈ cols := by simpa using h3
  simp [impute_group_pass, numeric_cols, m1, m2, m3]

theorem impute_global_pass_eq (cols : List String)
    (h1 : cols.contains "temperature_celsius" = true)
    (h2 : cols.contains "humidity_percent" = true)
    (h3 : cols.contains "wind_speed_kph" = true) (rows : List Row) :
    impute_global_pass cols rows =
      imputeGlobalCol "wind_speed_kph"
        (imputeGlobalCol "humidity_percent"
          (imputeGlobalCol "temperature_celsius" rows)) := by
  have m1 : "temperature_celsius" ∈ cols := by simpa using h1
  have m2 : "humidity_percent" ∈ cols := by simpa using h2
  have m3 : "wind_speed_kph" ∈ cols := by simpa using h3
  simp [impute_global_pass, numeric_cols, m1, m2, m3]

/-- Characterization of both imputation passes of `clean_data` against
the state of the table at imputation time: the group pass fills a
missing value of a row in group `g` with the group median of the
filtered rows, a row outside every group keeps no value; the global
pass fills what is still missing with the global median of the column
over all rows after the group pass. -/
theorem imputation_view_equations (t : Table)
    (h1 : t.cols.contains "temperature_celsius" = true)
    (h2 : t.cols.contains "humidity_percent" = true)
    (h3 : t.cols.contains "wind_speed_kph" = true)
    (c : String) (hc : c ∈ numeric_cols) :
    numView c (impute_group_pass t.cols (rows_after_condition t)) =
      (numView c (rows_after_condition t)).map
        (fun p => (p.1, match p.1 with
                        | none => none
                        | some g => Option.or p.2 (groupMedian c g (rows_after_condition t))))
    ∧
    numView c (clean_data t).rows =
      (numView c (impute_group_pass t.cols (rows_after_condition t))).map
        (fun p => (p.1, Option.or p.2
          (median ((impute_group_pass t.cols (rows_after_condition t)).filterMap (getNum c))))) := by
  have hne1 : "temperature_celsius" ≠ "humidity_percent" := by decide
  have hne2 : "temperature_celsius" ≠ "wind_speed_kph" := by decide
  have hne3 : "humidity_percent" ≠ "wind_speed_kph" := by decide
  have hrows : (clean_data t).rows =
      impute_global_pass t.cols (impute_group_pass t.cols (rows_after_condition t)) := rfl
  rw [hrows, impute_group_pass_eq t.cols h1 h2 h3, impute_global_pass_eq t.cols h1 h2 h3]
  set R := rows_after_condition t with hR
  simp only [numeric_cols, List.mem_cons, List.mem_singleton, List.not_mem_nil, or_false] at hc
  rcases hc with h | h | h <;> subst h
  · constructor
    · rw [numView_imputeGroupCol_ne _ _ hne2, numView_imputeGroupCol_ne _ _ hne1]
      exact numView_imputeGroupCol_self _ (by simp [numeric_cols]) R
    · rw [numView_imputeGlobalCol_ne _ _ hne2, numView_imputeGlobalCol_ne _ _ hne1]
      exact numView_imputeGlobalCol_self _ (by simp [numeric_cols]) _
  · constructor
    · rw [numView_imputeGroupCol_ne _ _ hne3,
        numView_imputeGroupCol_self _ (by simp [numeric_cols]),
        numView_imputeGroupCol_ne _ _ (Ne.symm hne1)]
      refine List.map_congr_left (fun p _ => ?_)
      rcases p.1 with _ | g
      · rfl
      · have := groupMedian_congr "humidity_percent" g
          (imputeGroupCol "temperature_celsius" R) R
          (numView_imputeGroupCol_ne _ _ (Ne.symm hne1) R)
        simp [this]
    · rw [numView_imputeGlobalCol_ne _ _ hne3,
        numView_imputeGlobalCol_self _ (by simp [numeric_cols]),
        numView_imputeGlobalCol_ne _ _ (Ne.symm hne1)]
      rw [filterMap_getNum_eq_view, filterMap_getNum_eq_view,
        numView_imputeGlobalCol_ne _ _ (Ne.symm hne1)]
  · constructor
    · rw [numView_imputeGroupCol_self _ (by simp [numeric_cols]),
        numView_imputeGroupCol_ne _ _ (Ne.symm hne3),
        numView_imputeGroupCol_ne _ _ (Ne.symm hne2)]
      refine List.map_congr_left (fun p _ => ?_)
      rcases p.1 with _ | g
      · rfl
      · have := groupMedian_congr "wind_speed_kph" g
          (imputeGroupCol "humidity_percent" (imputeGroupCol "temperature_celsius" R)) R
          (by rw [numView_imputeGroupCol_ne _ _ (Ne.symm hne3),
                numView_imputeGroupCol_ne _ _ (Ne.symm hne2)])
        simp [this]
    · rw [numView_imputeGlobalCol_self _ (by simp [numeric_cols]),
        numView_imputeGlobalCol_ne _ _ (Ne.symm hne3),
        numView_imputeGlobalCol_ne _ _ (Ne.symm hne2)]
      rw [filterMap_getNum_eq_view, filterMap_getNum_eq_view,
        numView_imputeGlobalCol_ne _ _ (Ne.symm hne3),
        numView_imputeGlobalCol_ne _ _ (Ne.symm hne2)]

/-! ## The imputation passes do not touch non-numeric columns -/

theorem nonNumView_group_pass (cols : List String) (rows : List Row) :
    nonNumView (impute_group_pass cols rows) = nonNumView rows := by
  simp only [impute_group_pass, numeric_cols, List.foldl_cons, List.foldl_nil]
  split_ifs <;> simp [nonNumView_imputeGroupCol]

theorem nonNumView_global_pass (cols : List String) (rows : List Row) :
    nonNumView (impute_global_pass cols rows) = nonNumView rows := by
  simp only [impute_global_pass, numeric_cols, List.foldl_cons, List.foldl_nil]
  split_ifs <;> simp [nonNumView_imputeGlobalCol]

theorem nonNumView_clean_data (t : Table) :
    nonNumView (clean_data t).rows = nonNumView (rows_after_condition t) := by
  have : (clean_data t).rows =
      impute_global_pass t.cols (impute_group_pass t.cols (rows_after_condition t)) := rfl
  rw [this, nonNumView_global_pass, nonNumView_group_pass]

/-! ## Lowercase stability of the normalized conditions -/

theorem char_toNat_ofNat {n : Nat} (h : n.isValidChar) : (Char.ofNat n).toNat = n := by
  unfold Char.ofNat
  rw [dif_pos h]
  simp [Char.ofNatAux, Char.toNat, UInt32.toNat]

theorem char_toLower_toLower (ch : Char) : ch.toLower.toLower = ch.toLower := by
  simp only [Char.toLower]
  by_cases h : 65 ≤ ch.toNat ∧ ch.toNat ≤ 90
  · rw [if_pos h]
    have hv : (ch.toNat + 32).isValidChar := Or.inl (by omega)
    have ht : (Char.ofNat (ch.toNat + 32)).toNat = ch.toNat + 32 := char_toNat_ofNat hv
    rw [if_neg]
    rw [ht]
    omega
  · rw [if_neg h, if_neg h]

theorem mem_data_stripStr (s : String) (c : Char) (h : c ∈ (stripStr s).data) :
    c ∈ s.data := by
  unfold stripStr at h
  simp only [List.mem_reverse] at h
  exact (List.dropWhile_sublist _).mem ((List.mem_reverse.mp (List.dropWhile_sublist _ |>.mem h)))

theorem lowerStr_stripStr_lowerStr (s : String) :
    lowerStr (stripStr (lowerStr s)) = stripStr (lowerStr s) := by
  have hfix : ∀ c ∈ (stripStr (lowerStr s)).data, c.toLower = c := by
    intro c hc
    have : c ∈ (lowerStr s).data := mem_data_stripStr _ c hc
    unfold lowerStr at this
    simp only at this
    rcases List.mem_map.mp this with ⟨c0, _, rfl⟩
    exact char_toLower_toLower c0
  show (⟨(stripStr (lowerStr s)).data.map Char.toLower⟩ : String) = stripStr (lowerStr s)
  have : (stripStr (lowerStr s)).data.map Char.toLower = (stripStr (lowerStr s)).data :=
    (List.map_congr_left hfix).trans (List.map_id _)
  rw [this]

/-! ## Existence of medians and means on non-empty data -/

theorem median_isSome (xs : List Rat) (h : xs ≠ []) : (median xs).isSome := by
  unfold median
  simp only
  have hlen : (xs.insertionSort (fun a b => a ≤ b)).length = xs.length := List.length_insertionSort _ xs
  have hx : xs.length ≠ 0 := fun h0 => h (List.length_eq_zero.mp h0)
  rw [hlen]
  rw [if_neg hx]
  by_cases hodd : xs.length % 2 = 1
  · rw [if_pos hodd]
    rcases hg : (xs.insertionSort (fun a b => a ≤ b)).get? (xs.length / 2) with _ | v
    · rw [List.get?_eq_none] at hg
      rw [hlen] at hg
      omega
    · simp
  · rw [if_neg hodd]
    have h2 : 2 ≤ xs.length := by omega
    rcases hg1 : (xs.insertionSort (fun a b => a ≤ b)).get? (xs.length / 2 - 1) with _ | v1
    · rw [List.get?_eq_none, hlen] at hg1
      omega
    · rcases hg2 : (xs.insertionSort (fun a b => a ≤ b)).get? (xs.length / 2) with _ | v2
      · rw [List.get?_eq_none, hlen] at hg2
        omega
      · simp

theorem mean_isSome (xs : List Rat) (h : xs ≠ []) : (mean xs).isSome := by
  unfold mean
  rw [if_neg (fun h0 => h (List.length_eq_zero.mp h0))]
  simp

/-! ## Completeness of the imputation -/

theorem clean_numeric_complete (t : Table)
    (h1 : t.cols.contains "temperature_celsius" = true)
    (h2 : t.cols.contains "humidity_percent" = true)
    (h3 : t.cols.contains "wind_speed_kph" = true)
    (c : String) (hc : c ∈ numeric_cols)
    (hwit : ∃ r ∈ rows_after_condition t, r.city.isSome ∧ (getNum c r).isSome) :
    ∀ r2 ∈ (clean_data t).rows, (getNum c r2).isSome := by
  obtain ⟨E1, E2⟩ := imputation_view_equations t h1 h2 h3 c hc
  intro r2 hr2
  have hp : (r2.city, getNum c r2) ∈ numView c (clean_data t).rows :=
    List.mem_map.mpr ⟨r2, hr2, rfl⟩
  rw [E2] at hp
  rcases List.mem_map.mp hp with ⟨p, hpmem, hpe⟩
  have hsnd : Option.or p.2
      (median ((impute_group_pass t.cols (rows_after_condition t)).filterMap (getNum c))) =
      getNum c r2 := congrArg Prod.snd hpe
  obtain ⟨r0, hr0, hcity0, hnum0⟩ := hwit
  rcases Option.isSome_iff_exists.mp hnum0 with ⟨v, hv⟩
  rcases Option.isSome_iff_exists.mp hcity0 with ⟨g, hg⟩
  have h0 : ((some g : Option String), (some v : Option Rat)) ∈
      numView c (rows_after_condition t) := by
    refine List.mem_map.mpr ⟨r0, hr0, ?_⟩
    rw [hg, hv]
  have h4 : ((some g : Option String), (some v : Option Rat)) ∈
      numView c (impute_group_pass t.cols (rows_after_condition t)) := by
    rw [E1]
    exact List.mem_map.mpr ⟨(some g, some v), h0, by simp [Option.or]⟩
  have hvmem : v ∈ (impute_group_pass t.cols (rows_after_condition t)).filterMap (getNum c) := by
    rw [filterMap_getNum_eq_view]
    exact List.mem_filterMap.mpr ⟨(some g, some v), h4, rfl⟩
  have hM : (median ((impute_group_pass t.cols (rows_after_condition t)).filterMap
      (getNum c))).isSome :=
    median_isSome _ (fun hnil => by simp [hnil] at hvmem)
  rw [← hsnd]
  rcases hp2 : p.2 with _ | w
  · simpa [Option.or] using hM
  · simp [Option.or]

/-- Every surviving row of the filtered table has a present date and a
normalized, kept condition. -/
theorem mem_rows_after_condition (t : Table)
    (hwc : t.cols.contains "weather_condition" = true)
    (r0 : Row) (h : r0 ∈ rows_after_condition t) :
    r0.date.isSome ∧
    (∃ s, r0.weather_condition = some s ∧ s ≠ "" ∧ s ≠ "unknown" ∧ lowerStr s = s) := by
  unfold rows_after_condition at h
  rw [if_pos hwc] at h
  rcases List.mem_filter.mp h with ⟨hmap, hkeep⟩
  rcases List.mem_map.mp hmap with ⟨r1, hr1, rfl⟩
  constructor
  · have hd : r1.date.isSome := by
      have := (List.mem_filter.mp hr1).2
      simpa using this
    simpa [normalize_condition] using hd
  · refine ⟨stripStr (lowerStr (condToStr r1.weather_condition)), rfl, ?_, ?_,
      lowerStr_stripStr_lowerStr _⟩
    · unfold condKeep normalize_condition at hkeep
      simp only [Bool.not_eq_true', Bool.or_eq_false_iff, decide_eq_false_iff_not] at hkeep
      exact hkeep.2
    · unfold condKeep normalize_condition at hkeep
      simp only [Bool.not_eq_true', Bool.or_eq_false_iff, decide_eq_false_iff_not] at hkeep
      exact hkeep.1

/-! ## Claim theorems for the cleaning stage -/

/-- C1 (counterexample). On a loaded table whose temperature column is
entirely missing, `clean_data` leaves the column missing: the group
medians and the global median do not exist, `fillna` with a missing
value changes nothing, so the claimed invariant that every numeric
column is fully populated after cleaning fails. -/
theorem clean_data_invariants_counterexample :
    ¬ (∀ r ∈ (clean_data tableAllTempMissing).rows,
        ∀ c ∈ numeric_cols, (getNum c r).isSome) := by
  decide

/-- C1 (amended). For every loaded table, after `clean_data` returns,
every row has a present date and a non-empty lowercase
`weather_condition` different from the sentinel "unknown" - both
unconditionally; and, per numeric column, every value of that column is
non-missing provided the column holds at least one non-missing value in
a row with a non-missing city among the rows that survive the date and
condition filters (without such a value the column has no median to
impute from and its missing entries remain). -/
theorem clean_data_invariants (t : Table)
    (hreq : ∀ c ∈ required_columns, t.cols.contains c = true) :
    ∀ r ∈ (clean_data t).rows,
      r.date.isSome ∧
      (∃ s, r.weather_condition = some s ∧ s ≠ "" ∧ s ≠ "unknown" ∧ lowerStr s = s) ∧
      (∀ c ∈ numeric_cols,
        (∃ r0 ∈ rows_after_condition t, r0.city.isSome ∧ (getNum c r0).isSome) →
        (getNum c r).isSome) := by
  have h1 : t.cols.contains "temperature_celsius" = true :=
    hreq _ (by simp [required_columns])
  have h2 : t.cols.contains "humidity_percent" = true :=
    hreq _ (by simp [required_columns])
  have h3 : t.cols.contains "wind_speed_kph" = true :=
    hreq _ (by simp [required_columns])
  have hwc : t.cols.contains "weather_condition" = true :=
    hreq _ (by simp [required_columns])
  intro r hr
  have hp : (r.date, r.city, r.weather_condition) ∈ nonNumView (clean_data t).rows :=
    List.mem_map.mpr ⟨r, hr, rfl⟩
  rw [nonNumView_clean_data] at hp
  rcases List.mem_map.mp hp with ⟨r0, hr0, he⟩
  obtain ⟨hdate0, s, hs0, hsne, hsnu, hslow⟩ := mem_rows_after_condition t hwc r0 hr0
  have hde : r0.date = r.date := congrArg (fun p => p.1) he
  have hwe : r0.weather_condition = r.weather_condition := congrArg (fun p => p.2.2) he
  refine ⟨hde ▸ hdate0, ⟨s, hwe ▸ hs0, hsne, hsnu, hslow⟩, ?_⟩
  exact fun c hc hwit => clean_numeric_complete t h1 h2 h3 c hc hwit r hr

/-- C1 (witness). The amended invariant evaluated on the two-row table:
the loaded-table hypothesis holds and the invariant follows. -/
theorem clean_data_invariants_witness :
    (∀ c ∈ required_columns, tableOneMissing.cols.contains c = true) ∧
    (∀ r ∈ (clean_data tableOneMissing).rows,
      r.date.isSome ∧
      (∃ s, r.weather_condition = some s ∧ s ≠ "" ∧ s ≠ "unknown" ∧ lowerStr s = s) ∧
      (∀ c ∈ numeric_cols,
        (∃ r0 ∈ rows_after_condition tableOneMissing,
          r0.city.isSome ∧ (getNum c r0).isSome) →
        (getNum c r).isSome)) :=
  ⟨by decide, clean_data_invariants tableOneMissing (by decide)⟩

/-- C2. During `clean_data`, the group pass maps the (city, value) view
of the filtered rows pointwise: a missing value of a row in city group
`g` becomes the median of the non-missing values of that column within
the group as they stand at imputation time (`groupMedian` over the
filtered rows), a present value is kept, and a row outside every group
holds no value; the global pass then maps any value still missing to
the global median of the column computed over all rows after the group
pass. -/
theorem clean_imputes_group_then_global_median (t : Table)
    (h1 : t.cols.contains "temperature_celsius" = true)
    (h2 : t.cols.contains "humidity_percent" = true)
    (h3 : t.cols.contains "wind_speed_kph" = true)
    (c : String) (hc : c ∈ numeric_cols) :
    numView c (impute_group_pass t.cols (rows_after_condition t)) =
      (numView c (rows_after_condition t)).map
        (fun p => (p.1, match p.1 with
                        | none => none
                        | some g => Option.or p.2 (groupMedian c g (rows_after_condition t))))
    ∧
    numView c (clean_data t).rows =
      (numView c (impute_group_pass t.cols (rows_after_condition t))).map
        (fun p => (p.1, Option.or p.2
          (median ((impute_group_pass t.cols (rows_after_condition t)).filterMap (getNum c))))) :=
  imputation_view_equations t h1 h2 h3 c hc

/-- C2 (witness). The imputation equations evaluated on the two-row
table for the temperature column. -/
theorem clean_imputes_group_then_global_median_witness :
    numView "temperature_celsius"
        (impute_group_pass tableOneMissing.cols (rows_after_condition tableOneMissing)) =
      (numView "temperature_celsius" (rows_after_condition tableOneMissing)).map
        (fun p => (p.1, match p.1 with
                        | none => none
                        | some g => Option.or p.2 (groupMedian "temperature_celsius" g
                            (rows_after_condition tableOneMissing))))
    ∧
    numView "temperature_celsius" (clean_data tableOneMissing).rows =
      (numView "temperature_celsius"
          (impute_group_pass tableOneMissing.cols (rows_after_condition tableOneMissing))).map
        (fun p => (p.1, Option.or p.2
          (median ((impute_group_pass tableOneMissing.cols
            (rows_after_condition tableOneMissing)).filterMap
              (getNum "temperature_celsius"))))) :=
  clean_imputes_group_then_global_median tableOneMissing (by decide) (by decide) (by decide)
    "temperature_celsius" (by decide)

/-! ## Column bookkeeping for the stage sequence -/

theorem mem_addCol {cols : List String} {c a : String} :
    a ∈ addCol cols c ↔ (a ∈ cols ∨ a = c) := by
  unfold addCol
  split_ifs with h
  · constructor
    · exact Or.inl
    · rintro (h2 | rfl)
      · exact h2
      · simpa using h
  · simp [List.mem_append]

theorem analyze_cols_present_transform (t : Table)
    (hreq : ∀ c ∈ required_columns, t.cols.contains c = true) :
    analyze_cols_present (transform_data t).cols = true := by
  have htemp : "temperature_celsius" ∈ t.cols := by
    simpa using hreq _ (by simp [required_columns])
  have hhum : "humidity_percent" ∈ t.cols := by
    simpa using hreq _ (by simp [required_columns])
  have hwind : "wind_speed_kph" ∈ t.cols := by
    simpa using hreq _ (by simp [required_columns])
  have hcity : "city" ∈ t.cols := by
    simpa using hreq _ (by simp [required_columns])
  have hwc : "weather_condition" ∈ t.cols := by
    simpa using hreq _ (by simp [required_columns])
  have hT : (transform_data t).cols =
      addCol (addCol (addCol (addCol t.cols "year") "month") "day")
        "temperature_fahrenheit" := by
    unfold transform_data
    simp [htemp]
  unfold analyze_cols_present analyze_numeric_cols numeric_cols
  rw [hT]
  simp only [List.all_eq_true]
  intro c hc
  fin_cases hc <;> simp [mem_addCol, htemp, hhum, hwind, hcity, hwc]

/-! ## Claim theorems for the stage protocol -/

/-- C6. `clean_data` fails with the not-loaded error exactly when the
table has not been populated; on a populated table with the loader's
required columns it succeeds, replacing the table with the cleaned one
and raising nothing (data quality is handled by discarding and
imputing, which the total function `clean_data` performs). -/
theorem clean_data_st_not_loaded_iff (st : PState) :
    ((clean_data_st st).1 = Except.error Err.notLoaded ↔ st.df = none) ∧
    (∀ t, st.df = some t →
      (∀ c ∈ required_columns, t.cols.contains c = true) →
      clean_data_st st = (Except.ok (), ⟨some (clean_data t)⟩)) := by
  constructor
  · constructor
    · intro h
      rcases hdf : st.df with _ | t
      · rfl
      · exfalso
        unfold clean_data_st at h
        rw [hdf] at h
        by_cases hr : clean_data_raises t.cols <;> simp [hr] at h
    · intro h
      unfold clean_data_st
      rw [h]
  · intro t ht hreq
    have hd : t.cols.contains "date" = true := hreq _ (by simp [required_columns])
    have hc : t.cols.contains "city" = true := hreq _ (by simp [required_columns])
    have hz : clean_data_raises t.cols = false := by
      have hd2 : "date" ∈ t.cols := by simpa using hd
      have hc2 : "city" ∈ t.cols := by simpa using hc
      simp [clean_data_raises, hd2, hc2]
    unfold clean_data_st
    rw [ht]
    simp [hz]

/-- C6 (witness). The success case evaluated on a concrete loaded
state, and the error case on the fresh state. -/
theorem clean_data_st_not_loaded_iff_witness :
    clean_data_st ⟨some tableSentinelCond⟩ =
      (Except.ok (), ⟨some (clean_data tableSentinelCond)⟩) ∧
    (clean_data_st ⟨none⟩).1 = Except.error Err.notLoaded :=
  ⟨(clean_data_st_not_loaded_iff ⟨some tableSentinelCond⟩).2 tableSentinelCond rfl (by decide),
   (clean_data_st_not_loaded_iff ⟨none⟩).1.mpr rfl⟩

/-- C7 (counterexample). A readable source containing only the `date`
column fails the schema check, but the table parsed from it has already
been assigned to the pipeline state: the failure is not abort-clean,
a partial table remains. -/
theorem load_data_partial_table_counterexample :
    (load_data (fun _ => none) (fun _ => none) (some ⟨["date"], [[]]⟩) ⟨none⟩).1 =
      Except.error Err.schemaError ∧
    (load_data (fun _ => none) (fun _ => none) (some ⟨["date"], [[]]⟩) ⟨none⟩).2.df ≠ none := by
  exact ⟨rfl, by decide⟩

/-- C7 (amended). `load_data` fails with a schema error exactly when a
required column is absent from a readable source, and with an i/o error
exactly when the source cannot be read; an unreadable source or one
whose header lacks `date` (which makes `read_csv` itself fail) leaves
the state untouched, but a readable source with `date` present is
assigned to the state before the schema check, so a schema failure
leaves that partial table behind. -/
theorem load_data_error_characterization (parseD : String → Option Date)
    (parseN : String → Option Rat) (src : Option Csv) (st : PState) :
    ((load_data parseD parseN src st).1 = Except.error Err.ioError ↔ src = none) ∧
    (∀ csv, src = some csv →
      ((load_data parseD parseN src st).1 = Except.error Err.schemaError ↔
        ¬ ∀ c ∈ required_columns, csv.header.contains c = true)) ∧
    (src = none → (load_data parseD parseN src st).2 = st) ∧
    (∀ csv, src = some csv → csv.header.contains "date" = false →
      (load_data parseD parseN src st).2 = st) ∧
    (∀ csv, src = some csv → csv.header.contains "date" = true →
      (load_data parseD parseN src st).2.df = some (parseCsv parseD parseN csv)) := by
  rcases src with _ | csv
  · refine ⟨by simp [load_data], ?_, fun _ => rfl, ?_, ?_⟩
    · intro csv h
      exact absurd h (by simp)
    · intro csv h
      exact absurd h (by simp)
    · intro csv h
      exact absurd h (by simp)
  · have hdate_req : "date" ∈ required_columns := by simp [required_columns]
    by_cases hd : csv.header.contains "date" = true
    · by_cases hall : required_columns.all (fun c => csv.header.contains c) = true
      · have hload : load_data parseD parseN (some csv) st =
            (Except.ok (), ⟨some (parseCsv parseD parseN csv)⟩) := by
          show (if csv.header.contains "date" = true then _ else _) = _
          rw [if_pos hd]
          show (if (required_columns.all fun c => csv.header.contains c) = true
            then _ else _) = _
          rw [if_pos hall]
        refine ⟨?_, ?_, ?_, ?_, ?_⟩
        · rw [hload]
          simp
        · intro csv2 h2
          cases h2
          rw [hload]
          constructor
          · intro h
            exact absurd h (by simp)
          · intro h
            exact absurd (List.all_eq_true.mp hall) h
        · intro h
          exact absurd h (by simp)
        · intro csv2 h2 hcontra
          cases h2
          rw [hd] at hcontra
          exact absurd hcontra (by simp)
        · intro csv2 h2 _
          cases h2
          rw [hload]
      · have hload : load_data parseD parseN (some csv) st =
            (Except.error Err.schemaError, ⟨some (parseCsv parseD parseN csv)⟩) := by
          show (if csv.header.contains "date" = true then _ else _) = _
          rw [if_pos hd]
          show (if (required_columns.all fun c => csv.header.contains c) = true
            then _ else _) = _
          rw [if_neg hall]
        refine ⟨?_, ?_, ?_, ?_, ?_⟩
        · rw [hload]
          simp
        · intro csv2 h2
          cases h2
          rw [hload]
          constructor
          · intro _ hcontra
            exact hall (List.all_eq_true.mpr hcontra)
          · intro _
            rfl
        · intro h
          exact absurd h (by simp)
        · intro csv2 h2 hcontra
          cases h2
          rw [hd] at hcontra
          exact absurd hcontra (by simp)
        · intro csv2 h2 _
          cases h2
          rw [hload]
    · have hd0 : ¬ (csv.header.contains "date" = true) := hd
      have hload : load_data parseD parseN (some csv) st =
          (Except.error Err.schemaError, st) := by
        show (if csv.header.contains "date" = true then _ else _) = _
        rw [if_neg hd0]
      refine ⟨?_, ?_, ?_, ?_, ?_⟩
      · rw [hload]
        simp
      · intro csv2 h2
        cases h2
        rw [hload]
        constructor
        · intro _ hcontra
          exact hd0 (hcontra _ hdate_req)
        · intro _
          rfl
      · intro h
        exact absurd h (by simp)
      · intro csv2 h2 _
        cases h2
        rw [hload]
      · intro csv2 h2 hcontra
        cases h2
        exact absurd hcontra hd0

/-- C7 (witness). The characterization applied to an unreadable source
and to the schema-failing source. -/
theorem load_data_error_characterization_witness :
    (load_data (fun _ => none) (fun _ => none) none ⟨none⟩).1 = Except.error Err.ioError ∧
    (load_data (fun _ => none) (fun _ => none) (some ⟨["date"], [[]]⟩) ⟨none⟩).1 =
      Except.error Err.schemaError :=
  ⟨(load_data_error_characterization (fun _ => none) (fun _ => none) none ⟨none⟩).1.mpr rfl,
   ((load_data_error_characterization (fun _ => none) (fun _ => none)
      (some ⟨["date"], [[]]⟩) ⟨none⟩).2.1 _ rfl).mpr (by decide)⟩

/-! ## Stage success helpers -/

theorem clean_data_st_ok (t : Table)
    (hreq : ∀ c ∈ required_columns, t.cols.contains c = true) :
    clean_data_st ⟨some t⟩ = (Except.ok (), ⟨some (clean_data t)⟩) := by
  have hd2 : "date" ∈ t.cols := by simpa using hreq _ (by simp [required_columns])
  have hc2 : "city" ∈ t.cols := by simpa using hreq _ (by simp [required_columns])
  have hz : clean_data_raises t.cols = false := by
    simp [clean_data_raises, hd2, hc2]
  simp only [clean_data_st]
  rw [if_neg]
  rw [hz]
  simp

theorem transform_data_st_ok (t : Table) (hd : t.cols.contains "date" = true) :
    transform_data_st ⟨some t⟩ = (Except.ok (), ⟨some (transform_data t)⟩) := by
  simp only [transform_data_st]
  rw [if_pos hd]

theorem analyze_data_st_ok (t : Table) (hp : analyze_cols_present t.cols = true) :
    analyze_data_st ⟨some t⟩ = (Except.ok (analyze_data t), ⟨some t⟩) := by
  simp only [analyze_data_st]
  rw [if_pos hp]

/-- C8. `run_pipeline` runs Loader, Cleaner, Transformer, Analyzer and
Exporter in sequence and returns `true` exactly when every stage
succeeds, which on this model means: the source is readable, carries
all required columns, and the export write succeeds. All stage failures
are caught and reported as the return value `false`; the orchestration
itself is a total function, it never propagates an error. -/
theorem run_pipeline_true_iff (parseD : String → Option Date)
    (parseN : String → Option Rat) (src : Option Csv) (exportOk : Bool) (st : PState) :
    (run_pipeline parseD parseN src exportOk st).1 = true ↔
      ((∃ csv, src = some csv ∧ ∀ c ∈ required_columns, csv.header.contains c = true) ∧
        exportOk = true) := by
  rcases src with _ | csv
  · simp [run_pipeline, load_data]
  · by_cases hall : required_columns.all (fun c => csv.header.contains c) = true
    · have hform := List.all_eq_true.mp hall
      have hd : csv.header.contains "date" = true := hform _ (by simp [required_columns])
      have hload : load_data parseD parseN (some csv) st =
          (Except.ok (), ⟨some (parseCsv parseD parseN csv)⟩) := by
        show (if csv.header.contains "date" = true then _ else _) = _
        rw [if_pos hd]
        show (if (required_columns.all fun c => csv.header.contains c) = true
          then _ else _) = _
        rw [if_pos hall]
      have hreqT : ∀ c ∈ required_columns,
          (parseCsv parseD parseN csv).cols.contains c = true := hform
      have hclean := clean_data_st_ok (parseCsv parseD parseN csv) hreqT
      have hreqC : ∀ c ∈ required_columns,
          (clean_data (parseCsv parseD parseN csv)).cols.contains c = true := hform
      have htrans := transform_data_st_ok (clean_data (parseCsv parseD parseN csv))
        (hreqC _ (by simp [required_columns]))
      have hanalyze := analyze_data_st_ok
        (transform_data (clean_data (parseCsv parseD parseN csv)))
        (analyze_cols_present_transform _ hreqC)
      rcases hexp : exportOk with _ | _
      · have hrun : (run_pipeline parseD parseN (some csv) false st).1 = false := by
          simp only [run_pipeline, hload, hclean, htrans, hanalyze, save_results]
          rfl
        rw [hrun]
        simp
      · have hrun : (run_pipeline parseD parseN (some csv) true st).1 = true := by
          simp only [run_pipeline, hload, hclean, htrans, hanalyze, save_results]
          rfl
        rw [hrun]
        simp only [true_iff]
        exact ⟨⟨csv, rfl, hform⟩, by trivial⟩
    · have hload : load_data parseD parseN (some csv) st =
          (if csv.header.contains "date" = true
            then (Except.error Err.schemaError, ⟨some (parseCsv parseD parseN csv)⟩)
            else (Except.error Err.schemaError, st)) := by
        show (if csv.header.contains "date" = true then _ else _) = _
        by_cases hd : csv.header.contains "date" = true
        · rw [if_pos hd, if_pos hd]
          show (if (required_columns.all fun c => csv.header.contains c) = true
            then _ else _) = _
          rw [if_neg hall]
        · rw [if_neg hd, if_neg hd]
      have hrun : (run_pipeline parseD parseN (some csv) exportOk st).1 = false := by
        simp only [run_pipeline, hload]
        by_cases hd : csv.header.contains "date" = true
        · rw [if_pos hd]
        · rw [if_neg hd]
      clear hload
      rw [hrun]
      constructor
      · intro h
        exact absurd h (by simp)
      · rintro ⟨⟨csv2, h2, hform⟩, _⟩
        cases h2
        exact absurd (List.all_eq_true.mpr hform) hall

/-- C9. `analyze_data` is read-only: on a state holding a transformed
table it returns the analysis views as a fresh value computed from the
table, and the state - the table, its rows, columns and values - is
returned unchanged. -/
theorem analyze_data_readonly (st : PState) (t : Table) (h : st.df = some t)
    (hp : analyze_cols_present t.cols = true) :
    analyze_data_st st = (Except.ok (analyze_data t), st) := by
  rcases st with ⟨df⟩
  cases h
  exact analyze_data_st_ok t hp

/-- C9 (witness). The analysis stage evaluated on a concrete
transformed table leaves the state intact. -/
theorem analyze_data_readonly_witness :
    analyze_data_st ⟨some tableThreeCities⟩ =
      (Except.ok (analyze_data tableThreeCities), ⟨some tableThreeCities⟩) :=
  analyze_data_readonly ⟨some tableThreeCities⟩ tableThreeCities rfl (by decide)

/-- C10. A row whose `weather_condition` was a null-sentinel token at
load time (the loader maps every token of `na_values` to the missing
marker) and whose date is valid survives `clean_data`: the string cast
of the missing marker yields the literal "nan", which the
unknown-or-empty filter does not remove, so the row appears in the
cleaned table with condition "nan". -/
theorem sentinel_condition_becomes_nan :
    (∀ (parseD : String → Option Date) (parseN : String → Option Rat)
        (header record : List String) (raw : String),
      getCell header record "weather_condition" = some raw →
      raw ∈ na_values →
      (parseRow parseD parseN header record).weather_condition = none) ∧
    (∀ t : Table, t.cols.contains "weather_condition" = true →
      ∀ r ∈ t.rows, r.date.isSome → r.weather_condition = none →
        ∃ r2 ∈ (clean_data t).rows,
          r2.weather_condition = some "nan" ∧ r2.date = r.date ∧ r2.city = r.city) := by
  constructor
  · intro parseD parseN header record raw hcell hna
    unfold parseRow naFilter
    simp [hcell, hna]
  · intro t hwc r hr hd hwcnone
    have hnan : stripStr (lowerStr "nan") = "nan" := by decide
    have hcond : (normalize_condition r).weather_condition = some "nan" := by
      simp [normalize_condition, hwcnone, condToStr, hnan]
    have hn : normalize_condition r ∈ rows_after_condition t := by
      unfold rows_after_condition
      rw [if_pos hwc]
      refine List.mem_filter.mpr ⟨List.mem_map.mpr ⟨r, ?_, rfl⟩, ?_⟩
      · exact List.mem_filter.mpr ⟨hr, by simpa using hd⟩
      · simp [condKeep, hcond]
    have htr : ((normalize_condition r).date, (normalize_condition r).city,
        (normalize_condition r).weather_condition) ∈ nonNumView (clean_data t).rows := by
      rw [nonNumView_clean_data]
      exact List.mem_map.mpr ⟨_, hn, rfl⟩
    rcases List.mem_map.mp htr with ⟨r2, hr2, he⟩
    have hdate : (normalize_condition r).date = r.date := rfl
    have hcity : (normalize_condition r).city = r.city := rfl
    refine ⟨r2, hr2, ?_, ?_, ?_⟩
    · have := congrArg (fun p => p.2.2) he
      simp only at this
      rw [this, hcond]
    · have := congrArg (fun p => p.1) he
      simp only at this
      rw [this, hdate]
    · have := congrArg (fun p => p.2.1) he
      simp only at this
      rw [this, hcity]

/-- C10 (witness). The loader part on a concrete record whose condition
cell is "unknown", and the survival part on the concrete sentinel
table. -/
theorem sentinel_condition_becomes_nan_witness :
    (parseRow (fun _ => none) (fun _ => none)
        ["date", "city", "temperature_celsius", "humidity_percent",
         "wind_speed_kph", "weather_condition"]
        ["01/01/2023", "a", "1", "2", "3", "unknown"]).weather_condition = none ∧
    (∃ r2 ∈ (clean_data tableSentinelCond).rows,
      r2.weather_condition = some "nan" ∧
      r2.date = (mkRow (some ⟨2023, 1, 1⟩) (some "a") (some 1) (some 2) (some 3) none).date ∧
      r2.city = (mkRow (some ⟨2023, 1, 1⟩) (some "a") (some 1) (some 2) (some 3) none).city) :=
  ⟨sentinel_condition_becomes_nan.1 _ _ _ _ "unknown" rfl (by decide),
   sentinel_condition_becomes_nan.2 tableSentinelCond (by decide) _ (by decide)
     (by decide) rfl⟩

/-- C4. After `transform_data` on a cleaned table (every date present),
every row carries `year`, `month` and `day` equal to the components of
its date, and `temperature_fahrenheit` equal to
`temperature_celsius * 9/5 + 32` whenever the Celsius column exists. -/
theorem transform_derives_columns (t : Table)
    (hdates : ∀ r ∈ t.rows, r.date.isSome) :
    ∀ r ∈ (transform_data t).rows,
      (∃ d, r.date = some d ∧ r.year = some d.year ∧ r.month = some d.month ∧
        r.day = some d.day) ∧
      (t.cols.contains "temperature_celsius" = true →
        r.temperature_fahrenheit = r.temperature_celsius.map (fun c => c * 9 / 5 + 32)) := by
  intro r hr
  unfold transform_data at hr
  simp only [List.mem_map] at hr
  rcases hr with ⟨r0, hr0, rfl⟩
  have hr0m : r0 ∈ t.rows := (List.mem_insertionSort _).mp hr0
  rcases Option.isSome_iff_exists.mp (hdates r0 hr0m) with ⟨d, hdd⟩
  constructor
  · exact ⟨d, by simp [deriveRow, hdd]⟩
  · intro htemp
    have htemp2 : "temperature_celsius" ∈ t.cols := by simpa using htemp
    simp [deriveRow, htemp2]

/-- C4 (witness). The derivation evaluated on a concrete cleaned
table. -/
theorem transform_derives_columns_witness :
    (∀ r ∈ tableOneMissing.rows, r.date.isSome) ∧
    (∀ r ∈ (transform_data tableOneMissing).rows,
      (∃ d, r.date = some d ∧ r.year = some d.year ∧ r.month = some d.month ∧
        r.day = some d.day) ∧
      (tableOneMissing.cols.contains "temperature_celsius" = true →
        r.temperature_fahrenheit = r.temperature_celsius.map (fun c => c * 9 / 5 + 32))) :=
  ⟨by decide, transform_derives_columns tableOneMissing (by decide)⟩

/-! ## Rounding is monotone -/

theorem roundHalfEven_ge_floor (x : Rat) : ⌊x⌋ ≤ roundHalfEven x := by
  unfold roundHalfEven
  split_ifs <;> omega

theorem roundHalfEven_le_floor_add_one (x : Rat) : roundHalfEven x ≤ ⌊x⌋ + 1 := by
  unfold roundHalfEven
  split_ifs <;> omega

theorem roundHalfEven_mono {x y : Rat} (h : x ≤ y) :
    roundHalfEven x ≤ roundHalfEven y := by
  have hf : ⌊x⌋ ≤ ⌊y⌋ := Int.floor_le_floor h
  rcases eq_or_lt_of_le hf with heq | hlt
  · have h1 : x - (⌊x⌋ : Rat) ≤ y - (⌊y⌋ : Rat) := by
      have : ((⌊x⌋ : Int) : Rat) = ((⌊y⌋ : Int) : Rat) := by exact_mod_cast heq
      linarith
    unfold roundHalfEven
    rw [← heq]
    split_ifs <;> first | omega | linarith
  · have h1 : roundHalfEven x ≤ ⌊x⌋ + 1 := roundHalfEven_le_floor_add_one x
    have h2 : ⌊y⌋ ≤ roundHalfEven y := roundHalfEven_ge_floor y
    omega

theorem round2_mono {x y : Rat} (h : x ≤ y) : round2 x ≤ round2 y := by
  unfold round2
  have h100 : x * 100 ≤ y * 100 := by linarith
  have := roundHalfEven_mono h100
  have hc : ((roundHalfEven (x * 100) : Int) : Rat) ≤
      ((roundHalfEven (y * 100) : Int) : Rat) := by exact_mod_cast this
  linarith

/-! ## Generic list helpers -/

theorem length_filterMap_of_isSome {α β : Type} (f : α → Option β) (l : List α)
    (h : ∀ a ∈ l, (f a).isSome) : (l.filterMap f).length = l.length := by
  induction l with
  | nil => rfl
  | cons a rest ih =>
    rcases hfa : f a with _ | b
    · exact absurd (h a (by simp)) (by simp [hfa])
    · simp only [List.filterMap_cons, hfa, List.length_cons]
      rw [ih (fun a ha => h a (by simp [ha]))]

theorem map_fst_filterMap_mean (keys : List String) (f : String → Option Rat) :
    ((keys.filterMap (fun g => (f g).map (fun m => (g, m)))).map Prod.fst) =
      keys.filter (fun g => (f g).isSome) := by
  induction keys with
  | nil => rfl
  | cons g rest ih =>
    rcases hfg : f g with _ | m <;>
      simp [List.filterMap_cons, List.filter_cons, hfg, ih]

theorem mem_take_of_pair_sublist {α : Type} {l : List α} (hnd : l.Nodup) {a b : α}
    {n : Nat} (hab : [a, b].Sublist l) (hb : b ∈ l.take n) : a ∈ l.take n := by
  induction l generalizing n with
  | nil => simp at hb
  | cons x rest ih =>
    rcases n with _ | n
    · simp at hb
    · have hx : x ∉ rest := (List.nodup_cons.mp hnd).1
      have hrest : rest.Nodup := (List.nodup_cons.mp hnd).2
      simp only [List.take_succ_cons] at hb ⊢
      cases hab with
      | cons _ htail =>
        have hbmem : b ∈ rest := htail.mem (by simp)
        have hbx : b ≠ x := fun he => hx (he ▸ hbmem)
        have hb2 : b ∈ rest.take n := by
          rcases List.mem_cons.mp hb with h | h
          · exact absurd h hbx
          · exact h
        exact List.mem_cons_of_mem x (ih hrest htail hb2)
      | cons₂ _ htail =>
        exact List.mem_cons_self _ _

/-- C5. On a transformed table (every temperature present), the
`top_cities` view has length `min 5 (number of distinct cities)`; it is
sorted descending in its rounded mean temperatures; every entry carries
the two-decimal rounding of its city's mean temperature; every distinct
city left out has a mean no larger than that of any selected entry; and
a tie is resolved in favour of the city that comes first in the
grouping order (if two cities of the grouped series share a mean and
the later one is selected, so is the earlier one). -/
theorem top_cities_spec (rows : List Row)
    (htemp : ∀ r ∈ rows, r.temperature_celsius.isSome) :
    (top_cities rows).length = min 5 ((rows.filterMap Row.city).dedup).length ∧
    List.Pairwise (fun a b => b.2 ≤ a.2) (top_cities rows) ∧
    (∀ p ∈ top_cities rows, ∃ m, cityMeanTemp rows p.1 = some m ∧ p.2 = round2 m) ∧
    (∀ g mg, g ∈ cityKeysSorted rows → cityMeanTemp rows g = some mg →
      g ∉ (top_cities rows).map Prod.fst →
      ∀ p ∈ top_cities rows, ∃ mp, cityMeanTemp rows p.1 = some mp ∧ mg ≤ mp) ∧
    (∀ g g2 m, [(g, m), (g2, m)].Sublist (cityMeanSeries rows) →
      g2 ∈ (top_cities rows).map Prod.fst → g ∈ (top_cities rows).map Prod.fst) := by
  haveI hTot : IsTotal (String × Rat) (fun a b => b.2 ≤ a.2) :=
    ⟨fun a b => le_total b.2 a.2⟩
  haveI hTrans : IsTrans (String × Rat) (fun a b => b.2 ≤ a.2) :=
    ⟨fun a b c h1 h2 => le_trans h2 h1⟩
  have hall : ∀ g ∈ cityKeysSorted rows, (cityMeanTemp rows g).isSome := by
    intro g hg
    have hg2 : g ∈ (rows.filterMap Row.city).dedup := (List.mem_insertionSort _).mp hg
    have hg3 : g ∈ rows.filterMap Row.city := List.mem_dedup.mp hg2
    rcases List.mem_filterMap.mp hg3 with ⟨rw0, hrw, hcity⟩
    unfold cityMeanTemp
    apply mean_isSome
    intro hnil
    have hv : getNum "temperature_celsius" rw0 = rw0.temperature_celsius := by
      simp [getNum]
    rcases Option.isSome_iff_exists.mp (htemp rw0 hrw) with ⟨v, hvv⟩
    have hvm : v ∈ cityValues "temperature_celsius" g rows := by
      unfold cityValues
      refine List.mem_filterMap.mpr ⟨rw0, ?_, ?_⟩
      · exact List.mem_filter.mpr ⟨hrw, by simp [hcity]⟩
      · rw [hv, hvv]
    rw [hnil] at hvm
    simp at hvm
  have hpair : ∀ p ∈ cityMeanSeries rows, cityMeanTemp rows p.1 = some p.2 := by
    intro p hp
    rcases List.mem_filterMap.mp hp with ⟨g, hg, he⟩
    rcases hmg : cityMeanTemp rows g with _ | m
    · rw [hmg] at he
      simp at he
    · rw [hmg] at he
      obtain rfl : (g, m) = p := by simpa using he
      simp [hmg]
  have hSnodupfst : ((cityMeanSeries rows).map Prod.fst).Nodup := by
    unfold cityMeanSeries
    rw [map_fst_filterMap_mean]
    refine List.Nodup.filter _ ?_
    exact ((List.perm_insertionSort _ _).nodup_iff).mpr (List.nodup_dedup _)
  have hSnodup : (cityMeanSeries rows).Nodup := hSnodupfst.of_map
  have hsorted : List.Pairwise (fun a b : String × Rat => b.2 ≤ a.2)
      ((cityMeanSeries rows).insertionSort (fun a b => b.2 ≤ a.2)) :=
    List.sorted_insertionSort _ _
  have hperm : List.Perm
      ((cityMeanSeries rows).insertionSort (fun a b => b.2 ≤ a.2))
      (cityMeanSeries rows) := List.perm_insertionSort _ _
  have hlenS : (cityMeanSeries rows).length = ((rows.filterMap Row.city).dedup).length := by
    unfold cityMeanSeries
    rw [length_filterMap_of_isSome _ _ (fun g hg => by
      rcases Option.isSome_iff_exists.mp (hall g hg) with ⟨m, hm⟩
      simp [hm])]
    exact List.length_insertionSort _ _
  refine ⟨?_, ?_, ?_, ?_, ?_⟩
  · unfold top_cities nlargest5
    rw [List.length_map, List.length_take, hperm.length_eq, hlenS]
  · unfold top_cities nlargest5
    refine List.pairwise_map.mpr ?_
    have htake := List.Pairwise.sublist (List.take_sublist 5 _) hsorted
    exact htake.imp (fun hba => round2_mono hba)
  · intro p hp
    unfold top_cities nlargest5 at hp
    rcases List.mem_map.mp hp with ⟨q, hq, rfl⟩
    have hqS : q ∈ cityMeanSeries rows := hperm.subset (List.take_subset _ _ hq)
    exact ⟨q.2, hpair q hqS, rfl⟩
  · intro g mg hgk hmg hnot p hp
    have hgS : (g, mg) ∈ cityMeanSeries rows := by
      unfold cityMeanSeries
      refine List.mem_filterMap.mpr ⟨g, hgk, ?_⟩
      rw [hmg]
      rfl
    have hgsorted : (g, mg) ∈
        (cityMeanSeries rows).insertionSort (fun a b => b.2 ≤ a.2) :=
      hperm.mem_iff.mpr hgS
    have hnottake : (g, mg) ∉
        ((cityMeanSeries rows).insertionSort (fun a b => b.2 ≤ a.2)).take 5 := by
      intro hmem
      apply hnot
      unfold top_cities nlargest5
      exact List.mem_map.mpr ⟨(g, round2 mg), List.mem_map.mpr ⟨(g, mg), hmem, rfl⟩, rfl⟩
    have hdropmem : (g, mg) ∈
        ((cityMeanSeries rows).insertionSort (fun a b => b.2 ≤ a.2)).drop 5 := by
      have hsplit2 := List.take_append_drop 5
        ((cityMeanSeries rows).insertionSort (fun a b : String × Rat => b.2 ≤ a.2))
      rw [← hsplit2] at hgsorted
      rcases List.mem_append.mp hgsorted with h | h
      · exact absurd h hnottake
      · exact h
    unfold top_cities nlargest5 at hp
    rcases List.mem_map.mp hp with ⟨q, hq, rfl⟩
    have hsplit := (List.take_append_drop 5
      ((cityMeanSeries rows).insertionSort (fun a b => b.2 ≤ a.2)))
    have hp2 : List.Pairwise (fun a b : String × Rat => b.2 ≤ a.2)
        (((cityMeanSeries rows).insertionSort (fun a b => b.2 ≤ a.2)).take 5 ++
          ((cityMeanSeries rows).insertionSort (fun a b => b.2 ≤ a.2)).drop 5) := by
      rw [hsplit]
      exact hsorted
    have hle := (List.pairwise_append.mp hp2).2.2 q hq (g, mg) hdropmem
    have hqS : q ∈ cityMeanSeries rows := hperm.subset (List.take_subset _ _ hq)
    exact ⟨q.2, hpair q hqS, hle⟩
  · intro g g2 m hsub hg2
    have hpairSub : [(g, m), (g2, m)].Sublist
        ((cityMeanSeries rows).insertionSort (fun a b => b.2 ≤ a.2)) :=
      List.pair_sublist_insertionSort (le_refl m) hsub
    have hsnodup : ((cityMeanSeries rows).insertionSort
        (fun a b => b.2 ≤ a.2)).Nodup := (hperm.nodup_iff).mpr hSnodup
    unfold top_cities nlargest5 at hg2 ⊢
    rcases List.mem_map.mp hg2 with ⟨p2, hp2mem, hfst⟩
    rcases List.mem_map.mp hp2mem with ⟨q2, hq2, rfl⟩
    have hq2fst : q2.1 = g2 := by simpa using hfst
    have hq2S : q2 ∈ cityMeanSeries rows := hperm.subset (List.take_subset _ _ hq2)
    have hbS : (g2, m) ∈ cityMeanSeries rows := hsub.mem (by simp)
    have hq2eq : q2 = (g2, m) := by
      refine List.inj_on_of_nodup_map hSnodupfst hq2S hbS ?_
      rw [hq2fst]
    have hgtake : (g, m) ∈
        ((cityMeanSeries rows).insertionSort (fun a b => b.2 ≤ a.2)).take 5 :=
      mem_take_of_pair_sublist hsnodup hpairSub (hq2eq ▸ hq2)
    exact List.mem_map.mpr ⟨(g, round2 m), List.mem_map.mpr ⟨(g, m), hgtake, rfl⟩, rfl⟩

/-- C5 (witness). The `top_cities` contract evaluated on a concrete
three-city table with a tie. -/
theorem top_cities_spec_witness :
    (top_cities tableThreeCities.rows).length =
      min 5 ((tableThreeCities.rows.filterMap Row.city).dedup).length ∧
    List.Pairwise (fun a b => b.2 ≤ a.2) (top_cities tableThreeCities.rows) ∧
    (∀ p ∈ top_cities tableThreeCities.rows,
      ∃ m, cityMeanTemp tableThreeCities.rows p.1 = some m ∧ p.2 = round2 m) ∧
    (∀ g mg, g ∈ cityKeysSorted tableThreeCities.rows →
      cityMeanTemp tableThreeCities.rows g = some mg →
      g ∉ (top_cities tableThreeCities.rows).map Prod.fst →
      ∀ p ∈ top_cities tableThreeCities.rows,
        ∃ mp, cityMeanTemp tableThreeCities.rows p.1 = some mp ∧ mg ≤ mp) ∧
    (∀ g g2 m, [(g, m), (g2, m)].Sublist (cityMeanSeries tableThreeCities.rows) →
      g2 ∈ (top_cities tableThreeCities.rows).map Prod.fst →
      g ∈ (top_cities tableThreeCities.rows).map Prod.fst) :=
  top_cities_spec tableThreeCities.rows (by decide)

/-- C8 (witness). The orchestration evaluated at a readable schema-valid
source with a succeeding export returns `true`, and at an unreadable
source returns `false`. -/
theorem run_pipeline_true_iff_witness :
    (run_pipeline (fun _ => none) (fun _ => none)
      (some ⟨required_columns, []⟩) true ⟨none⟩).1 = true ∧
    (run_pipeline (fun _ => none) (fun _ => none) none true ⟨none⟩).1 = false :=
  ⟨(run_pipeline_true_iff (fun _ => none) (fun _ => none)
      (some ⟨required_columns, []⟩) true ⟨none⟩).mpr ⟨⟨_, rfl, by decide⟩, rfl⟩,
   by
    rcases h : (run_pipeline (fun _ => none) (fun _ => none) none true ⟨none⟩).1 with _ | _
    · rfl
    · exact absurd ((run_pipeline_true_iff (fun _ => none) (fun _ => none)
        none true ⟨none⟩).mp h).1 (by simp)⟩

end WeatherPipeline
